import Mathlib

/-!
Verification of the tutorial-generation pipeline of
PocketFlow-Tutorial-Codebase-Knowledge.

The development shallowly embeds the validation, truncation, caching and
chapter-writing logic of `standalone_tutorial_generator.py` (v1),
`standalone_tutorial_generator_v2.py` (v2) and `utils/call_llm.py`.
Python strings are modelled as `List Char`; Python `int` as `Int`;
fallible code returns `Except PyErr`.  Model responses are embedded from
the point where `yaml.safe_load` has produced structured data, since the
claims under study concern the post-parse validation logic.
-/

/-- Python strings are modelled as lists of characters. -/
abbrev Str := List Char

/-- Coerce a Lean string literal into the model. -/
def str (s : String) : Str := s.data

/-- The whitespace characters stripped by Python `str.strip()`
(ASCII subset; the Unicode extras are irrelevant to this code base). -/
def pyIsSpace (c : Char) : Bool :=
  c = ' ' || c = '\t' || c = '\n' || c = '\r' || c = '\x0b' || c = '\x0c'

/-- Left part of Python `str.strip()`. -/
def lstrip (l : Str) : Str := l.dropWhile pyIsSpace

/-- Right part of Python `str.strip()`. -/
def rstrip (l : Str) : Str := (l.reverse.dropWhile pyIsSpace).reverse

/-- Python `str.strip()`. -/
def pyStrip (l : Str) : Str := rstrip (lstrip l)

/-- Python `s.split(sep)` for a one-character separator `sep`. -/
def splitOnChar (sep : Char) : Str → List Str
  | [] => [[]]
  | c :: rest =>
    if c = sep then [] :: splitOnChar sep rest
    else
      match splitOnChar sep rest with
      | [] => [[c]]
      | x :: xs => (c :: x) :: xs

/-- Python `s.split(sep)` for a two-character separator `a,b`
(left-to-right, non-overlapping, as in CPython). -/
def pySplit2 (a b : Char) : Str → List Str
  | [] => [[]]
  | [c] => [[c]]
  | c :: d :: rest =>
    if c = a ∧ d = b then [] :: pySplit2 a b rest
    else
      match pySplit2 a b (d :: rest) with
      | [] => [[c]]
      | x :: xs => (c :: x) :: xs

/-- Python `sep.join(xs)`. -/
def join_sep (sep : Str) : List Str → Str
  | [] => []
  | [x] => x
  | x :: y :: rest => x ++ sep ++ join_sep sep (y :: rest)

/-- Python `x[-n:]` on a string: for `n = 0` this is the whole string. -/
def pyTail (n : Nat) (l : Str) : Str :=
  if n = 0 then l else l.drop (l.length - n)

/-- Decimal rendering of a natural number (digit accumulator with fuel,
so that it reduces definitionally). -/
def natStrGo : Nat → Nat → Str → Str
  | 0, _, acc => acc
  | fuel + 1, n, acc =>
    let acc' := Nat.digitChar (n % 10) :: acc
    if n < 10 then acc' else natStrGo fuel (n / 10) acc'

/-- Decimal rendering of a natural number, as produced by Python `str`. -/
def natStr (n : Nat) : Str := natStrGo (n + 1) n []

/-- Decimal rendering of an integer, as produced by Python `str`. -/
def intStr (i : Int) : Str :=
  if i < 0 then '-' :: natStr i.natAbs else natStr i.toNat

/-- Value of a digit string (most significant digit first). -/
def digitsToNat (ds : Str) : Nat :=
  ds.foldl (fun a c => a * 10 + (c.toNat - 48)) 0

/-- Errors raised by the embedded Python fragments. -/
inductive PyErr
  | valueError
deriving DecidableEq

/-- Python `int(s)`: strips surrounding whitespace, accepts an optional
sign followed by decimal digits, raises `ValueError` otherwise
(digit-group underscores are not used by this code base and are omitted). -/
def pyInt (s : Str) : Except PyErr Int :=
  let t := pyStrip s
  match t with
  | '-' :: ds =>
    if ds ≠ [] ∧ ds.all Char.isDigit then .ok (-(digitsToNat ds : Int))
    else .error .valueError
  | '+' :: ds =>
    if ds ≠ [] ∧ ds.all Char.isDigit then .ok (digitsToNat ds)
    else .error .valueError
  | ds =>
    if ds ≠ [] ∧ ds.all Char.isDigit then .ok (digitsToNat ds)
    else .error .valueError

/-- Python `s.replace(c, "")`. -/
def pyRemoveChar (c : Char) (l : Str) : Str := l.filter (fun d => d ≠ c)

/-- Python `s.replace(a, b)` for single characters `a`, `b`. -/
def pyReplaceChar (a b : Char) (l : Str) : Str :=
  l.map (fun c => if c = a then b else c)

/-- Insert an integer into an ascending duplicate-free list, keeping it
ascending and duplicate-free. -/
def insertSorted (x : Int) : List Int → List Int
  | [] => [x]
  | y :: ys =>
    if x = y then y :: ys
    else if x < y then x :: y :: ys
    else y :: insertSorted x ys

/-- Python `sorted(list(set(l)))` for integers. -/
def sortedDedup (l : List Int) : List Int :=
  l.foldl (fun acc x => insertSorted x acc) []

/-- Python `sub in s` (substring containment), as a Boolean. -/
def pyContains (sub : Str) : Str → Bool
  | [] => sub.isEmpty
  | c :: rest => sub.isPrefixOf (c :: rest) || pyContains sub rest

-- ===========================================================================
-- DATA MODEL — the structured values produced by `yaml.safe_load` on the
-- fenced block of a model response, and the validated pipeline data.
-- ===========================================================================

/-- A scalar of the parsed YAML block: a YAML integer or a YAML string
(the only scalar shapes this pipeline's prompts elicit). -/
inductive YamlVal
  | int (n : Int)
  | str (s : Str)
deriving DecidableEq

/-- Python `str()` applied to a parsed YAML scalar. -/
def yamlValStr : YamlVal → Str
  | .int n => intStr n
  | .str s => s

/-- One record of the parsed abstraction list (keys `name`, `description`,
`file_indices`). -/
structure RawAbstraction where
  name : Str
  description : Str
  file_indices : List YamlVal
deriving DecidableEq

/-- A validated abstraction (keys `name`, `description`, `files`). -/
structure AbstractionV1 where
  name : Str
  description : Str
  files : List Int
deriving DecidableEq

def defaultAbstraction : AbstractionV1 := ⟨[], [], []⟩

/-- One record of the parsed `relationships` list. -/
structure RawRel where
  from_abstraction : YamlVal
  to_abstraction : YamlVal
  label : Str
deriving DecidableEq

/-- The parsed relationship response (keys `summary`, `relationships`). -/
structure RawRelData where
  summary : Str
  relationships : List RawRel
deriving DecidableEq

/-- A validated relationship (dict keys `from`, `to`, `label`). -/
structure Relationship where
  from_ : Int
  to_ : Int
  label : Str
deriving DecidableEq

/-- The value returned by `analyze_relationships`
(keys `summary`, `details`). -/
structure RelGraph where
  summary : Str
  details : List Relationship
deriving DecidableEq

-- ===========================================================================
-- v1: standalone_tutorial_generator.py
-- ===========================================================================

/-- v1 lines 744-751 and 902-909: normalization of one index entry
(`idx_entry` in `identify_abstractions`, `entry` in `order_chapters`;
the two loops are textually identical). -/
def parse_idx_entry : YamlVal → Except PyErr Int
  | .int n => .ok n
  | .str s =>
    if s.contains '#' then pyInt (pyStrip ((splitOnChar '#' s).headD []))
    else pyInt (pyStrip s)

/-- v1 lines 743-751: the `validated_indices` loop of one abstraction record;
raises at the first entry that does not parse as an integer. -/
def validate_indices : List YamlVal → Except PyErr (List Int)
  | [] => .ok []
  | e :: rest =>
    match parse_idx_entry e, validate_indices rest with
    | .ok i, .ok is => .ok (i :: is)
    | .error err, _ => .error err
    | .ok _, .error err => .error err

/-- v1 lines 741-760: validation/normalization of the parsed abstraction
list.  `files_data` is received but — notably — never consulted: no range
check is performed on the parsed indices. -/
def identify_abstractions (files_data : List (Str × Str)) :
    List RawAbstraction → Except PyErr (List AbstractionV1)
  | [] => .ok []
  | item :: rest =>
    match validate_indices item.file_indices,
          identify_abstractions files_data rest with
    | .ok is, .ok out =>
      .ok (⟨item.name, item.description, sortedDedup is⟩ :: out)
    | .error err, _ => .error err
    | .ok _, .error err => .error err

/-- v1 lines 850-851: `int(str(rel[...]).split("#")[0].strip())`. -/
def parse_rel_idx (v : YamlVal) : Except PyErr Int :=
  pyInt (pyStrip ((splitOnChar '#' (yamlValStr v)).headD []))

/-- v1 lines 848-856: the `validated_relationships` loop. -/
def validate_relationships : List RawRel → Except PyErr (List Relationship)
  | [] => .ok []
  | r :: rest =>
    match parse_rel_idx r.from_abstraction, parse_rel_idx r.to_abstraction,
          validate_relationships rest with
    | .ok f, .ok t, .ok out => .ok (⟨f, t, r.label⟩ :: out)
    | .error e, _, _ => .error e
    | .ok _, .error e, _ => .error e
    | .ok _, .ok _, .error e => .error e

/-- v1 lines 843-862: validation step of `analyze_relationships`.  The
abstraction list and files are received but no coverage check over
`abstractions` is performed (despite the docstring's claim at lines
786-789). -/
def analyze_relationships (abstractions : List AbstractionV1)
    (files_data : List (Str × Str)) (parsed : RawRelData) :
    Except PyErr RelGraph :=
  match validate_relationships parsed.relationships with
  | .ok details => .ok ⟨parsed.summary, details⟩
  | .error e => .error e

/-- v1 lines 901-909: the `ordered_indices` loop of `order_chapters`. -/
def parse_order_entries : List YamlVal → Except PyErr (List Int)
  | [] => .ok []
  | e :: rest =>
    match parse_idx_entry e, parse_order_entries rest with
    | .ok i, .ok is => .ok (i :: is)
    | .error err, _ => .error err
    | .ok _, .error err => .error err

/-- v1 lines 896-912: `order_chapters` from the parsed YAML list on; the
parsed sequence is returned as-is, with no permutation check. -/
def order_chapters (abstractions : List AbstractionV1)
    (relationships : RelGraph) (parsed : List YamlVal) :
    Except PyErr (List Int) :=
  parse_order_entries parsed

/-- v1 lines 576-585: the per-file truncation inside
`get_content_for_indices`. -/
def truncate_entry_v1 (max_chars_per_file : Nat) (content : Str) : Str :=
  if content.length > max_chars_per_file then
    let half_limit := max_chars_per_file / 2
    content.take half_limit ++
      str "\n\n... [Content truncated - showing first " ++ natStr half_limit ++
      str " and last " ++ natStr half_limit ++ str " chars of " ++
      natStr content.length ++ str " total] ...\n\n" ++
      pyTail half_limit content
  else content

/-- Python dict assignment `d[k] = v` on an insertion-ordered map. -/
def upsertEntry (m : List (Str × Str)) (k v : Str) : List (Str × Str) :=
  if m.any (fun p => p.1 = k) then
    m.map (fun p => if p.1 = k then (k, v) else p)
  else m ++ [(k, v)]

/-- v1 lines 558-587: `get_content_for_indices`.  Out-of-range indices are
silently skipped; in-range indices contribute a `"i # path"` key. -/
def get_content_for_indices (files_data : List (Str × Str))
    (indices : List Int) (max_chars_per_file : Nat) : List (Str × Str) :=
  indices.foldl
    (fun content_map i =>
      if 0 ≤ i ∧ i < (files_data.length : Int) then
        let pc := files_data.getD i.toNat ([], [])
        upsertEntry content_map (intStr i ++ str " # " ++ pc.1)
          (truncate_entry_v1 max_chars_per_file pc.2)
      else content_map)
    []

/-- The heading test string `f"# Chapter {chapter_num}"` of v1 line 987
and v2 line 405. -/
def heading_check (chapter_num : Nat) : Str :=
  str "# Chapter " ++ natStr chapter_num

/-- `actual_heading` of v1 line 986: `f"# Chapter {chapter_num}: {name}"`. -/
def actual_heading (chapter_num : Nat) (name : Str) : Str :=
  heading_check chapter_num ++ str ": " ++ name

/-- v1 lines 986-993: heading enforcement on a chapter response.  Note the
test only checks the `"# Chapter <n>"` prefix, not `": <name>"`. -/
def fix_heading_v1 (chapter_num : Nat) (name : Str) (chapter_content : Str) :
    Str :=
  if (heading_check chapter_num).isPrefixOf (pyStrip chapter_content) then
    chapter_content
  else
    match splitOnChar '\n' (pyStrip chapter_content) with
    | first :: rest =>
      if (str "#").isPrefixOf (pyStrip first) then
        join_sep (str "\n") (actual_heading chapter_num name :: rest)
      else actual_heading chapter_num name ++ str "\n\n" ++ chapter_content
    | [] => actual_heading chapter_num name ++ str "\n\n" ++ chapter_content

/-- v1 line 925: `safe_name`. -/
def safe_name (name : Str) : Str :=
  (name.map (fun c => if c.isAlphanum then c else '_')).map Char.toLower

/-- Python `f"{n:02d}"` for the 1- and 2-digit numbers used here. -/
def pad2 (n : Nat) : Str := if n < 10 then '0' :: natStr n else natStr n

/-- v1 line 926: the chapter filename slug. -/
def chapter_filename (i : Nat) (chapter_name : Str) : Str :=
  pad2 (i + 1) ++ str "_" ++ safe_name chapter_name ++ str ".md"

/-- v1 lines 919-934: `full_chapter_listing`, precomputed before any
chapter is generated. -/
def full_chapter_listing (chapter_order : List Nat)
    (abstractions : List AbstractionV1) : Str :=
  join_sep (str "\n")
    (chapter_order.enum.map (fun p =>
      let chapter_name := (abstractions.getD p.2 defaultAbstraction).name
      natStr (p.1 + 1) ++ str ". [" ++ chapter_name ++ str "](" ++
        chapter_filename p.1 chapter_name ++ str ")"))

/-- v1 lines 947-950: one entry of `file_context_str`
(`idx_path.split('# ')[1] if '# ' in idx_path else idx_path`). -/
def file_context_entry (p : Str × Str) : Str :=
  str "--- File: " ++
    (if pyContains (str "# ") p.1 then (pySplit2 '#' ' ' p.1).getD 1 []
     else p.1) ++
    str " ---\n" ++ p.2

/-- v1 lines 944-950: the file-context block of a chapter prompt. -/
def file_context_of (files_data : List (Str × Str))
    (related_file_indices : List Int) : Str :=
  join_sep (str "\n\n")
    ((get_content_for_indices files_data related_file_indices 6000).map
      file_context_entry)

/-- v1 lines 952-982: the chapter prompt (the f-string, with its
interpolations spelled out as concatenation). -/
def chapter_prompt (project_name : Str) (abstractions : List AbstractionV1)
    (files_data : List (Str × Str)) (listing : Str) (chapter_num : Nat)
    (abstraction_index : Nat) (chapters_written_so_far : List Str) : Str :=
  let abstraction_details := abstractions.getD abstraction_index defaultAbstraction
  let fcs := file_context_of files_data abstraction_details.files
  let previous_chapters_summary := join_sep (str "\n---\n") chapters_written_so_far
  str "\nWrite a very beginner-friendly tutorial chapter (in Markdown format) for the project `" ++
  project_name ++ str "` about the concept: \"" ++ abstraction_details.name ++
  str "\". This is Chapter " ++ natStr chapter_num ++
  str ".\n\nConcept Details:\n- Name: " ++ abstraction_details.name ++
  str "\n- Description:\n" ++ abstraction_details.description ++
  str "\n\nComplete Tutorial Structure:\n" ++ listing ++
  str "\n\nContext from previous chapters:\n" ++
  (if previous_chapters_summary ≠ [] then previous_chapters_summary
   else str "This is the first chapter.") ++
  str "\n\nRelevant Code Snippets:\n" ++
  (if fcs ≠ [] then fcs else str "No specific code snippets provided.") ++
  str "\n\nInstructions:\n- Start with heading: `# Chapter " ++
  natStr chapter_num ++ str ": " ++ abstraction_details.name ++
  str "`\n- Begin with high-level motivation explaining what problem this solves\n- Break complex abstractions into key concepts\n- Explain with examples, inputs/outputs\n- Keep code blocks under 10 lines\n- Use mermaid diagrams for complex concepts\n- Use analogies and examples\n- End with summary and transition to next chapter\n\nNow, provide the Markdown content:\n"

/-- v1 lines 936-996: the chapter loop.  The state is the pair
`(chapters, chapters_written_so_far)`; each iteration generates from the
prompt built over `chapters_written_so_far` and appends the
heading-normalized content to both lists.  `gen` abstracts
`call_llm` (a pure prompt → response oracle). -/
def write_chapters_go (gen : Str → Str) (project_name : Str)
    (abstractions : List AbstractionV1) (files_data : List (Str × Str))
    (listing : Str) :
    List Nat → Nat → List Str × List Str → List Str × List Str
  | [], _, st => st
  | abstraction_index :: rest, i, (chapters, chapters_written_so_far) =>
    let chapter_num := i + 1
    let prompt := chapter_prompt project_name abstractions files_data listing
      chapter_num abstraction_index chapters_written_so_far
    let chapter_content := fix_heading_v1 chapter_num
      (abstractions.getD abstraction_index defaultAbstraction).name (gen prompt)
    write_chapters_go gen project_name abstractions files_data listing rest
      (i + 1)
      (chapters ++ [chapter_content],
       chapters_written_so_far ++ [chapter_content])

/-- v1 lines 914-999: `write_chapters` (the only field of `config` it
reads is `project_name`). -/
def write_chapters (gen : Str → Str) (chapter_order : List Nat)
    (abstractions : List AbstractionV1) (files_data : List (Str × Str))
    (project_name : Str) : List Str :=
  (write_chapters_go gen project_name abstractions files_data
    (full_chapter_listing chapter_order abstractions) chapter_order 0
    ([], [])).1

/-- v1 lines 1018-1020: sanitization/truncation of a Mermaid edge label. -/
def edge_label_v1 (label : Str) : Str :=
  let s := pyReplaceChar '\n' ' ' (pyRemoveChar '"' label)
  if s.length > 30 then s.take 27 ++ str "..." else s

/-- v1 lines 1010-1013: one Mermaid node line. -/
def mermaid_node_line_v1 (i : Nat) (a : AbstractionV1) : Str :=
  str "    A" ++ natStr i ++ str "[\"" ++ pyRemoveChar '"' a.name ++ str "\"]"

/-- v1 lines 1015-1021: one Mermaid edge line. -/
def mermaid_edge_line_v1 (rel : Relationship) : Str :=
  str "    A" ++ intStr rel.from_ ++ str " -- \"" ++ edge_label_v1 rel.label ++
  str "\" --> A" ++ intStr rel.to_

/-- v1 lines 1009-1023: the Mermaid diagram lines of `combine_tutorial`
(header, then one node per abstraction, then one edge per relationship). -/
def mermaid_lines_v1 (abstractions : List AbstractionV1)
    (details : List Relationship) : List Str :=
  str "flowchart TD" ::
    (abstractions.enum.map (fun p => mermaid_node_line_v1 p.1 p.2) ++
     details.map mermaid_edge_line_v1)

-- ===========================================================================
-- LLM generation boundary and cache (v1 lines 164-321; utils/call_llm.py
-- has the same `_check_cache` / `_save_to_cache` / `call_llm` logic).
-- ===========================================================================

/-- The on-disk `llm_cache.json`, abstracted: the file may be absent,
unreadable (corrupt JSON or an I/O error — anything that makes the read
raise), or a readable JSON object. -/
inductive CacheFile
  | absent
  | unreadable
  | entries (m : List (Str × Str))
deriving DecidableEq

/-- `prompt in cache` / `cache[prompt]` lookup on the decoded object. -/
def lookupEntry (m : List (Str × Str)) (k : Str) : Option Str :=
  match m.find? (fun p => p.1 = k) with
  | some p => some p.2
  | none => none

/-- v1 lines 194-205 (utils identical): `_check_cache`.  Any read failure
is caught and logged, behaving as a cache miss. -/
def _check_cache (cf : CacheFile) (prompt : Str) : Option Str :=
  match cf with
  | .absent => none
  | .unreadable => none
  | .entries m => lookupEntry m prompt

/-- v1 lines 207-221 (utils identical; v2 lines 100-110 inline the same
logic): `_save_to_cache`.  `write_ok` models whether the final
`json.dump` succeeds; every exception is caught, so the call never
raises.  When the existing file is unreadable the read inside the `try`
raises before the write, leaving the file unchanged. -/
def _save_to_cache (cf : CacheFile) (write_ok : Bool) (prompt response : Str) :
    CacheFile :=
  match cf with
  | .unreadable => cf
  | .absent => if write_ok then .entries [(prompt, response)] else cf
  | .entries m =>
    if write_ok then .entries (upsertEntry m prompt response) else cf

/-- v1 lines 164-166: `_count_tokens` (4 chars per token estimate). -/
def _count_tokens (text : Str) : Nat := text.length / 4

/-- v1 lines 168-192: `_ensure_prompt_fits_context`.
`int(max_tokens * 3.5)` is written `max_tokens * 7 / 2`, exact for the
even `max_tokens = 900000` used at the call site. -/
def _ensure_prompt_fits_context (max_tokens : Nat) (prompt : Str) : Str :=
  let token_count := _count_tokens prompt
  if token_count ≤ max_tokens then prompt
  else
    let target_chars := max_tokens * 7 / 2
    if prompt.length ≤ target_chars then prompt
    else
      let keep_start := target_chars / 3
      let keep_end := target_chars / 3
      prompt.take keep_start ++
        str "\n\n... [CONTENT TRUNCATED - Original length: " ++
        natStr prompt.length ++ str " chars, " ++ natStr token_count ++
        str " tokens] ...\n\n" ++
        pyTail keep_end prompt

/-- v1 lines 270-321 (utils/call_llm.py lines 30-77 are the same logic):
the generation boundary.  `gen` abstracts the provider transport; the
result is `(response, transport invoked?, resulting cache file)`.
The inner `if r ≠ []` mirrors Python's truthiness test
`if response_from_cache:` — an empty cached string is falsy and falls
through to generation. -/
def call_llm (gen : Str → Str) (cf : CacheFile) (write_ok : Bool)
    (use_cache : Bool) (prompt0 : Str) : Str × Bool × CacheFile :=
  let prompt := _ensure_prompt_fits_context 900000 prompt0
  let cached := if use_cache then _check_cache cf prompt else none
  match cached with
  | some r =>
    if r ≠ [] then (r, false, cf)
    else
      let response := gen prompt
      (response, true,
       if use_cache then _save_to_cache cf write_ok prompt response else cf)
  | none =>
    let response := gen prompt
    (response, true,
     if use_cache then _save_to_cache cf write_ok prompt response else cf)

-- ===========================================================================
-- v2: standalone_tutorial_generator_v2.py
-- ===========================================================================

namespace V2

/-- v2 lines 63-112: `call_llm`.  No prompt-length normalization; the hit
test is `if prompt in cache:`, which returns even an empty cached string;
read and write failures are swallowed by bare `except: pass`. -/
def call_llm (gen : Str → Str) (cf : CacheFile) (write_ok : Bool)
    (use_cache : Bool) (prompt : Str) : Str × Bool × CacheFile :=
  let cached :=
    match cf with
    | .entries m => if use_cache then lookupEntry m prompt else none
    | _ => none
  match cached with
  | some r => (r, false, cf)
  | none =>
    let result := gen prompt
    (result, true,
     if use_cache then _save_to_cache cf write_ok prompt result else cf)

/-- v2 lines 245-250: `truncate_content`.  The marker reports the number
of characters by which the content exceeds the budget, not the original
length. -/
def truncate_content (content : Str) (max_chars : Nat) : Str :=
  if content.length ≤ max_chars then content
  else
    let half := max_chars / 2
    content.take half ++ str "\n\n... [truncated " ++
      natStr (content.length - max_chars) ++ str " chars] ...\n\n" ++
      pyTail half content

/-- v2 line 292: `int(str(i).split('#')[0].strip()) if isinstance(i, str)
else i`. -/
def parse_idx (v : YamlVal) : Except PyErr Int :=
  match v with
  | .int n => .ok n
  | .str s => pyInt (pyStrip ((splitOnChar '#' s).headD []))

/-- v2 lines 292-293: the index list comprehension of one record. -/
def validate_indices : List YamlVal → Except PyErr (List Int)
  | [] => .ok []
  | e :: rest =>
    match parse_idx e, validate_indices rest with
    | .ok i, .ok is => .ok (i :: is)
    | .error err, _ => .error err
    | .ok _, .error err => .error err

/-- v2 lines 289-301: validation of the parsed abstraction list; the
parsed indices are kept verbatim (no dedup, no sort, no range check). -/
def identify_abstractions (files : List (Str × Str)) :
    List RawAbstraction → Except PyErr (List AbstractionV1)
  | [] => .ok []
  | item :: rest =>
    match validate_indices item.file_indices,
          identify_abstractions files rest with
    | .ok is, .ok out => .ok (⟨item.name, item.description, is⟩ :: out)
    | .error err, _ => .error err
    | .ok _, .error err => .error err

/-- v2 lines 404-406: heading enforcement — prepend-only, same prefix
test as v1. -/
def fix_heading (chapter_num : Nat) (name : Str) (response : Str) : Str :=
  if (heading_check chapter_num).isPrefixOf (pyStrip response) then response
  else actual_heading chapter_num name ++ str "\n\n" ++ response

/-- v2 line 442: one Mermaid node line — the label is not sanitized. -/
def mermaid_node_line (i : Nat) (a : AbstractionV1) : Str :=
  str "    A" ++ natStr i ++ str "[\"" ++ a.name ++ str "\"]"

/-- v2 line 444: `rel["label"].replace('"', '')[:20]` — a bare prefix cut
with no ellipsis. -/
def edge_label (label : Str) : Str := (pyRemoveChar '"' label).take 20

/-- v2 line 445: one Mermaid edge line. -/
def mermaid_edge_line (rel : Relationship) : Str :=
  str "    A" ++ intStr rel.from_ ++ str " -- \"" ++ edge_label rel.label ++
  str "\" --> A" ++ intStr rel.to_

/-- v2 lines 440-445: the Mermaid diagram lines of `generate_tutorial`. -/
def mermaid_lines (abstractions : List AbstractionV1)
    (details : List Relationship) : List Str :=
  str "flowchart TD" ::
    (abstractions.enum.map (fun p => mermaid_node_line p.1 p.2) ++
     details.map mermaid_edge_line)

end V2

-- ===========================================================================
-- Derived views of the v1 chapter loop, used to state its invariants.
-- ===========================================================================

/-- The `chapters` list after the first `m` iterations of the v1 chapter
loop (v1 lines 936-996). -/
def chapters_after (gen : Str → Str) (chapter_order : List Nat)
    (abstractions : List AbstractionV1) (files_data : List (Str × Str))
    (project_name : Str) (m : Nat) : List Str :=
  (write_chapters_go gen project_name abstractions files_data
    (full_chapter_listing chapter_order abstractions) (chapter_order.take m) 0
    ([], [])).1

/-- The prompt the v1 chapter loop sends when generating chapter `n + 1`
(0-based position `n`), built over the `chapters_written_so_far`
accumulator of the first `n` iterations. -/
def prompt_at (gen : Str → Str) (chapter_order : List Nat)
    (abstractions : List AbstractionV1) (files_data : List (Str × Str))
    (project_name : Str) (n : Nat) : Str :=
  chapter_prompt project_name abstractions files_data
    (full_chapter_listing chapter_order abstractions) (n + 1)
    (chapter_order.getD n 0)
    ((write_chapters_go gen project_name abstractions files_data
      (full_chapter_listing chapter_order abstractions) (chapter_order.take n)
      0 ([], [])).2)

-- ===========================================================================
-- THEOREMS
-- ===========================================================================

set_option maxRecDepth 8000

-- Basic facts about the string primitives.

theorem mem_insertSorted (a x : Int) (l : List Int) :
    a ∈ insertSorted x l ↔ a = x ∨ a ∈ l := by
  induction l with
  | nil => simp [insertSorted]
  | cons y ys ih =>
    by_cases h1 : x = y
    · subst h1
      simp only [insertSorted, if_pos rfl]
      constructor
      · intro h; exact Or.inr h
      · rintro (rfl | h)
        · exact List.mem_cons_self _ _
        · exact h
    · by_cases h2 : x < y
      · simp [insertSorted, h1, h2, List.mem_cons]
      · simp only [insertSorted, if_neg h1, if_neg h2, List.mem_cons, ih]
        tauto

theorem mem_sortedDedup_aux (a : Int) (l acc : List Int) :
    a ∈ l.foldl (fun acc x => insertSorted x acc) acc ↔ a ∈ acc ∨ a ∈ l := by
  induction l generalizing acc with
  | nil => simp
  | cons x xs ih =>
    simp only [List.foldl_cons, ih, mem_insertSorted, List.mem_cons]
    tauto

theorem mem_sortedDedup (a : Int) (l : List Int) :
    a ∈ sortedDedup l ↔ a ∈ l := by
  simpa [sortedDedup] using mem_sortedDedup_aux a l []

theorem join_sep_ne_nil (sep : Str) (x : Str) (l : List Str) (hx : x ≠ []) :
    join_sep sep (x :: l) ≠ [] := by
  cases l with
  | nil => simpa [join_sep] using hx
  | cons y ys =>
    simp only [join_sep]
    intro h
    exact hx (List.append_eq_nil.mp (List.append_eq_nil.mp h).1).1

theorem isPrefixOf_join_sep (sep : Str) (x : Str) (l : List Str) :
    x <+: join_sep sep (x :: l) := by
  cases l with
  | nil => simp [join_sep]
  | cons y ys => simp only [join_sep, List.append_assoc]; exact ⟨_, rfl⟩

theorem natStrGo_ne_nil (fuel n : Nat) (acc : Str) :
    natStrGo (fuel + 1) n acc ≠ [] := by
  induction fuel generalizing n acc with
  | zero =>
    simp only [natStrGo]
    split <;> simp
  | succ f ih =>
    simp only [natStrGo]
    split
    · simp
    · exact ih _ _

theorem natStr_ne_nil (n : Nat) : natStr n ≠ [] := natStrGo_ne_nil n n []

theorem natStrGo_mem_digit (fuel n : Nat) (acc : Str)
    (hacc : ∀ c ∈ acc, c.isDigit) :
    ∀ c ∈ natStrGo fuel n acc, c.isDigit := by
  induction fuel generalizing n acc with
  | zero => simpa [natStrGo] using hacc
  | succ f ih =>
    have hd : (Nat.digitChar (n % 10)).isDigit := by
      have h10 : n % 10 < 10 := Nat.mod_lt _ (by omega)
      interval_cases h : (n % 10) <;> decide
    simp only [natStrGo]
    split
    · intro c hc
      rcases List.mem_cons.mp hc with rfl | hc
      · exact hd
      · exact hacc c hc
    · refine ih _ _ ?_
      intro c hc
      rcases List.mem_cons.mp hc with rfl | hc
      · exact hd
      · exact hacc c hc

theorem natStr_mem_digit (n : Nat) : ∀ c ∈ natStr n, c.isDigit :=
  natStrGo_mem_digit (n + 1) n [] (by simp)

theorem isDigit_not_space (c : Char) (h : c.isDigit) : pyIsSpace c = false := by
  simp only [Char.isDigit] at h
  simp only [pyIsSpace, Bool.or_eq_false_iff, decide_eq_false_iff_not]
  refine ⟨⟨⟨⟨⟨?_, ?_⟩, ?_⟩, ?_⟩, ?_⟩, ?_⟩ <;>
    (rintro rfl; revert h; decide)

theorem rstrip_keeps_tail (q : Str) (c : Char) (t : Str)
    (hc : pyIsSpace c = false) :
    (q ++ [c]) <+: rstrip (q ++ [c] ++ t) := by
  have hrev : (q ++ [c] ++ t).reverse = t.reverse ++ (c :: q.reverse) := by
    simp
  simp only [rstrip, hrev, List.dropWhile_append]
  split
  · rw [List.dropWhile_cons, hc]
    simp
  · refine ⟨(t.reverse.dropWhile pyIsSpace).reverse, ?_⟩
    simp

theorem prefix_pyStrip (p l : Str) (hne : p ≠ [])
    (hh : pyIsSpace (p.headD ' ') = false)
    (hl : pyIsSpace (p.getLastD ' ') = false)
    (hp : p <+: l) : p <+: pyStrip l := by
  obtain ⟨t, rfl⟩ := hp
  obtain ⟨q, c, rfl⟩ := (List.eq_nil_or_concat' p).resolve_left hne
  have hstep : lstrip (q ++ [c] ++ t) = q ++ [c] ++ t := by
    cases q with
    | nil =>
      simp only [List.getLastD_concat] at hl
      simp only [List.nil_append, lstrip, List.cons_append, List.dropWhile_cons, hl]
      simp
    | cons a as =>
      simp only [List.cons_append, List.headD_cons] at hh
      simp only [lstrip, List.cons_append, List.dropWhile_cons, hh]
      simp
  simp only [pyStrip, hstep]
  exact rstrip_keeps_tail q c t (by simpa using hl)

-- Heading facts (v1 lines 986-993, v2 lines 404-406).

theorem heading_check_cons (n : Nat) :
    heading_check n = '#' :: (str " Chapter " ++ natStr n) := rfl

theorem heading_check_ne_nil (n : Nat) : heading_check n ≠ [] := by
  rw [heading_check_cons]; exact List.cons_ne_nil _ _

theorem actual_heading_ne_nil (n : Nat) (name : Str) :
    actual_heading n name ≠ [] := by
  intro h
  exact heading_check_ne_nil n
    (List.append_eq_nil.mp (List.append_eq_nil.mp h).1).1

theorem heading_check_headD_not_space (n : Nat) :
    pyIsSpace ((heading_check n).headD ' ') = false := by
  rw [heading_check_cons, List.headD_cons]; decide

theorem heading_check_getLastD_not_space (n : Nat) :
    pyIsSpace ((heading_check n).getLastD ' ') = false := by
  obtain ⟨q, c, hqc⟩ :=
    (List.eq_nil_or_concat' (natStr n)).resolve_left (natStr_ne_nil n)
  have hc : c.isDigit :=
    natStr_mem_digit n c
      (by rw [hqc]; exact List.mem_append_right _ (List.mem_singleton_self c))
  have hdec : heading_check n = (str "# Chapter " ++ q) ++ [c] := by
    rw [heading_check, hqc, List.append_assoc]
  rw [hdec, List.getLastD_concat]
  exact isDigit_not_space c hc

theorem heading_prefix_strip (n : Nat) (l : Str)
    (h : heading_check n <+: l) : heading_check n <+: pyStrip l :=
  prefix_pyStrip _ _ (heading_check_ne_nil n)
    (heading_check_headD_not_space n) (heading_check_getLastD_not_space n) h

theorem heading_check_prefix_actual (n : Nat) (name : Str) :
    heading_check n <+: actual_heading n name :=
  ⟨str ": " ++ name, by rw [actual_heading, List.append_assoc]⟩

theorem fix_heading_v1_ne_nil (n : Nat) (name r : Str) :
    fix_heading_v1 n name r ≠ [] := by
  unfold fix_heading_v1
  split
  · next hcond =>
    intro hr; subst hr
    have hpre := List.isPrefixOf_iff_prefix.mp hcond
    exact heading_check_ne_nil n (List.prefix_nil.mp hpre)
  · split
    · split
      · exact join_sep_ne_nil _ _ _ (actual_heading_ne_nil n name)
      · intro h
        exact actual_heading_ne_nil n name
          (List.append_eq_nil.mp (List.append_eq_nil.mp h).1).1
    · intro h
      exact actual_heading_ne_nil n name
        (List.append_eq_nil.mp (List.append_eq_nil.mp h).1).1

-- Cache facts (v1 lines 164-321, v2 lines 63-112, utils/call_llm.py).

theorem ensure_short (max_tokens : Nat) (prompt : Str)
    (h : _count_tokens prompt ≤ max_tokens) :
    _ensure_prompt_fits_context max_tokens prompt = prompt := by
  unfold _ensure_prompt_fits_context
  simp [h]

theorem lookup_upsertEntry (m : List (Str × Str)) (k v : Str) :
    lookupEntry (upsertEntry m k v) k = some v := by
  induction m with
  | nil => simp [upsertEntry, lookupEntry, List.find?]
  | cons p rest ih =>
    by_cases hpk : p.1 = k
    · simp [upsertEntry, lookupEntry, List.find?, hpk]
    · by_cases har : rest.any (fun q => q.1 = k)
      · have h1 : upsertEntry (p :: rest) k v = p :: (upsertEntry rest k v) := by
          simp [upsertEntry, hpk, har]
        rw [h1]
        simp only [lookupEntry, List.find?]
        rw [show (decide (p.1 = k)) = false by simp [hpk]]
        exact ih
      · have h1 : upsertEntry (p :: rest) k v = p :: (upsertEntry rest k v) := by
          simp [upsertEntry, hpk, har]
        rw [h1]
        simp only [lookupEntry, List.find?]
        rw [show (decide (p.1 = k)) = false by simp [hpk]]
        exact ih

-- Chapter-loop facts (v1 lines 914-999).

theorem write_chapters_go_append (gen : Str → Str) (pn : Str)
    (abstractions : List AbstractionV1) (files_data : List (Str × Str))
    (listing : Str) (l₁ l₂ : List Nat) (i : Nat) (st : List Str × List Str) :
    write_chapters_go gen pn abstractions files_data listing (l₁ ++ l₂) i st =
      write_chapters_go gen pn abstractions files_data listing l₂
        (i + l₁.length)
        (write_chapters_go gen pn abstractions files_data listing l₁ i st) := by
  induction l₁ generalizing i st with
  | nil => simp [write_chapters_go]
  | cons a rest ih =>
    cases st with
    | mk c w =>
      simp only [List.cons_append, write_chapters_go, List.length_cons,
        List.append_eq]
      rw [ih]
      have hn : i + 1 + rest.length = i + (rest.length + 1) := by omega
      rw [hn]

theorem write_chapters_go_sync (gen : Str → Str) (pn : Str)
    (abstractions : List AbstractionV1) (files_data : List (Str × Str))
    (listing : Str) (l : List Nat) (i : Nat) (c : List Str) :
    (write_chapters_go gen pn abstractions files_data listing l i (c, c)).1 =
    (write_chapters_go gen pn abstractions files_data listing l i (c, c)).2 := by
  induction l generalizing i c with
  | nil => rfl
  | cons a rest ih =>
    simp only [write_chapters_go]
    exact ih _ _

theorem write_chapters_go_length (gen : Str → Str) (pn : Str)
    (abstractions : List AbstractionV1) (files_data : List (Str × Str))
    (listing : Str) (l : List Nat) (i : Nat) (st : List Str × List Str) :
    (write_chapters_go gen pn abstractions files_data listing l i st).1.length =
      st.1.length + l.length := by
  induction l generalizing i st with
  | nil => simp [write_chapters_go]
  | cons a rest ih =>
    cases st with
    | mk c w =>
      simp only [write_chapters_go, List.length_cons]
      rw [ih]
      simp only [List.length_append, List.length_cons, List.length_nil]
      omega

theorem write_chapters_go_prefix_fst (gen : Str → Str) (pn : Str)
    (abstractions : List AbstractionV1) (files_data : List (Str × Str))
    (listing : Str) (l : List Nat) (i : Nat) (c w : List Str) :
    c <+: (write_chapters_go gen pn abstractions files_data listing l i
      (c, w)).1 := by
  induction l generalizing i c w with
  | nil => exact List.prefix_refl c
  | cons a rest ih =>
    simp only [write_chapters_go]
    exact List.IsPrefix.trans (List.prefix_append c _) (ih _ _ _)

theorem write_chapters_go_ne_nil (gen : Str → Str) (pn : Str)
    (abstractions : List AbstractionV1) (files_data : List (Str × Str))
    (listing : Str) (l : List Nat) (i : Nat) (c w : List Str)
    (hc : ∀ x ∈ c, x ≠ []) :
    ∀ x ∈ (write_chapters_go gen pn abstractions files_data listing l i
      (c, w)).1, x ≠ [] := by
  induction l generalizing i c w with
  | nil => exact hc
  | cons a rest ih =>
    simp only [write_chapters_go]
    refine ih _ _ _ ?_
    intro x hx
    rcases List.mem_append.mp hx with hx | hx
    · exact hc x hx
    · rw [List.mem_singleton] at hx
      subst hx
      exact fix_heading_v1_ne_nil _ _ _

theorem write_chapters_length (gen : Str → Str) (chapter_order : List Nat)
    (abstractions : List AbstractionV1) (files_data : List (Str × Str))
    (project_name : Str) :
    (write_chapters gen chapter_order abstractions files_data
      project_name).length = chapter_order.length := by
  unfold write_chapters
  rw [write_chapters_go_length]
  simp

theorem take_of_prefix_length (c f : List Str) (n : Nat)
    (h : c <+: f) (hl : c.length = n) : f.take n = c := by
  obtain ⟨t, rfl⟩ := h
  subst hl
  exact List.take_left c t

-- Key-set facts for `get_content_for_indices` (v1 lines 558-587).

theorem keys_upsertEntry (m : List (Str × Str)) (k v k' : Str) :
    k' ∈ (upsertEntry m k v).map Prod.fst ↔ k' ∈ m.map Prod.fst ∨ k' = k := by
  unfold upsertEntry
  split
  · next hany =>
    have hmem : k ∈ m.map Prod.fst := by
      rcases List.any_eq_true.mp hany with ⟨p, hp, hpk⟩
      rw [decide_eq_true_eq] at hpk
      exact hpk ▸ List.mem_map_of_mem Prod.fst hp
    have hkeys :
        (m.map fun p => if p.1 = k then (k, v) else p).map Prod.fst =
          m.map Prod.fst := by
      rw [List.map_map]
      refine List.map_congr_left ?_
      intro p _
      by_cases h : p.1 = k <;> simp [h]
    rw [hkeys]
    constructor
    · exact Or.inl
    · rintro (h | rfl)
      · exact h
      · exact hmem
  · simp [List.map_append]

theorem keys_get_content_aux (files_data : List (Str × Str))
    (max_chars_per_file : Nat) (l : List Int) (acc : List (Str × Str))
    (k : Str) :
    k ∈ (l.foldl
      (fun content_map i =>
        if 0 ≤ i ∧ i < (files_data.length : Int) then
          let pc := files_data.getD i.toNat ([], [])
          upsertEntry content_map (intStr i ++ str " # " ++ pc.1)
            (truncate_entry_v1 max_chars_per_file pc.2)
        else content_map)
      acc).map Prod.fst ↔
    k ∈ acc.map Prod.fst ∨
      ∃ i ∈ l, (0 ≤ i ∧ i < (files_data.length : Int)) ∧
        k = intStr i ++ str " # " ++ (files_data.getD i.toNat ([], [])).1 := by
  induction l generalizing acc with
  | nil => simp
  | cons j l ih =>
    by_cases hj : 0 ≤ j ∧ j < (files_data.length : Int)
    · simp only [List.foldl_cons, if_pos hj, ih, keys_upsertEntry,
        List.exists_mem_cons_iff]
      tauto
    · simp only [List.foldl_cons, if_neg hj, ih, List.exists_mem_cons_iff]
      tauto

-- Parse facts (v1 lines 741-760, 896-912; v2 lines 289-301).

theorem validate_indices_ok_mem (es : List YamlVal) (is : List Int)
    (h : validate_indices es = .ok is) (n : Int) :
    n ∈ is ↔ ∃ e ∈ es, parse_idx_entry e = .ok n := by
  induction es generalizing is with
  | nil =>
    simp only [validate_indices] at h
    injection h with h
    subst h
    simp
  | cons e rest ih =>
    cases hp : parse_idx_entry e with
    | error err => rw [validate_indices, hp] at h; cases h
    | ok i =>
      cases hr : validate_indices rest with
      | error err => rw [validate_indices, hp, hr] at h; cases h
      | ok is' =>
        rw [validate_indices, hp, hr] at h
        injection h with h
        subst h
        constructor
        · intro hn
          rcases List.mem_cons.mp hn with rfl | hn
          · exact ⟨e, List.mem_cons_self _ _, hp⟩
          · rcases (ih is' hr).mp hn with ⟨e', he', hpe'⟩
            exact ⟨e', List.mem_cons_of_mem _ he', hpe'⟩
        · rintro ⟨e', he', hpe'⟩
          rcases List.mem_cons.mp he' with rfl | he'
          · rw [hp] at hpe'
            injection hpe' with h2
            rw [← h2]
            exact List.mem_cons_self _ _
          · exact List.mem_cons_of_mem _ ((ih is' hr).mpr ⟨e', he', hpe'⟩)

theorem validate_indices_v2_ok_mem (es : List YamlVal) (is : List Int)
    (h : V2.validate_indices es = .ok is) (n : Int) :
    n ∈ is ↔ ∃ e ∈ es, V2.parse_idx e = .ok n := by
  induction es generalizing is with
  | nil =>
    simp only [V2.validate_indices] at h
    injection h with h
    subst h
    simp
  | cons e rest ih =>
    cases hp : V2.parse_idx e with
    | error err => rw [V2.validate_indices, hp] at h; cases h
    | ok i =>
      cases hr : V2.validate_indices rest with
      | error err => rw [V2.validate_indices, hp, hr] at h; cases h
      | ok is' =>
        rw [V2.validate_indices, hp, hr] at h
        injection h with h
        subst h
        constructor
        · intro hn
          rcases List.mem_cons.mp hn with rfl | hn
          · exact ⟨e, List.mem_cons_self _ _, hp⟩
          · rcases (ih is' hr).mp hn with ⟨e', he', hpe'⟩
            exact ⟨e', List.mem_cons_of_mem _ he', hpe'⟩
        · rintro ⟨e', he', hpe'⟩
          rcases List.mem_cons.mp he' with rfl | he'
          · rw [hp] at hpe'
            injection hpe' with h2
            rw [← h2]
            exact List.mem_cons_self _ _
          · exact List.mem_cons_of_mem _ ((ih is' hr).mpr ⟨e', he', hpe'⟩)

theorem parse_order_entries_int (l : List Int) :
    parse_order_entries (l.map YamlVal.int) = .ok l := by
  induction l with
  | nil => rfl
  | cons i rest ih =>
    simp only [List.map_cons, parse_order_entries, parse_idx_entry, ih]

theorem write_chapters_take (gen : Str → Str) (chapter_order : List Nat)
    (abstractions : List AbstractionV1) (files_data : List (Str × Str))
    (project_name : Str) (m : Nat) (hm : m ≤ chapter_order.length) :
    chapters_after gen chapter_order abstractions files_data project_name m =
      (write_chapters gen chapter_order abstractions files_data
        project_name).take m := by
  unfold chapters_after write_chapters
  set L := full_chapter_listing chapter_order abstractions with hL
  conv_rhs => rw [← List.take_append_drop m chapter_order]
  rw [write_chapters_go_append]
  set st := write_chapters_go gen project_name abstractions files_data L
    (chapter_order.take m) 0 ([], []) with hst
  have hsync : st.1 = st.2 := by
    rw [hst]
    exact write_chapters_go_sync gen project_name abstractions files_data _ _ 0 []
  have hpair : st = (st.1, st.1) := by
    conv_lhs => rw [← Prod.mk.eta (p := st)]
    rw [← hsync]
  have hlen : st.1.length = m := by
    rw [hst, write_chapters_go_length]
    simp [List.length_take, Nat.min_eq_left hm]
  have hpre : st.1 <+:
      (write_chapters_go gen project_name abstractions files_data L
        (chapter_order.drop m) (0 + (chapter_order.take m).length) st).1 := by
    conv_rhs => rw [hpair]
    exact write_chapters_go_prefix_fst gen project_name abstractions files_data
      L _ _ _ _
  exact (take_of_prefix_length _ _ _ hpre hlen).symm

theorem write_chapters_step (gen : Str → Str) (chapter_order : List Nat)
    (abstractions : List AbstractionV1) (files_data : List (Str × Str))
    (project_name : Str) (n : Nat) (h2 : n < chapter_order.length) :
    (write_chapters gen chapter_order abstractions files_data
      project_name).take (n + 1) =
    (write_chapters gen chapter_order abstractions files_data
      project_name).take n ++
      [fix_heading_v1 (n + 1)
        (abstractions.getD (chapter_order.getD n 0) defaultAbstraction).name
        (gen (prompt_at gen chapter_order abstractions files_data project_name
          n))] := by
  have hgd : chapter_order.getD n 0 = chapter_order[n] := by
    simp [List.getD_eq_getElem?_getD, List.getElem?_eq_getElem h2]
  set L := full_chapter_listing chapter_order abstractions with hL
  set st := write_chapters_go gen project_name abstractions files_data L
    (chapter_order.take n) 0 ([], []) with hst
  have hsync : st.1 = st.2 := by
    rw [hst]
    exact write_chapters_go_sync gen project_name abstractions files_data _ _ 0 []
  have hpair : st = (st.1, st.1) := by
    conv_lhs => rw [← Prod.mk.eta (p := st)]
    rw [← hsync]
  have hlen : st.1.length = n := by
    rw [hst, write_chapters_go_length]
    simp [List.length_take, Nat.min_eq_left (le_of_lt h2)]
  have htl : (chapter_order.take n).length = n := by
    simp [List.length_take, Nat.min_eq_left (le_of_lt h2)]
  have hfinal : write_chapters gen chapter_order abstractions files_data
      project_name =
      (write_chapters_go gen project_name abstractions files_data L
        (chapter_order.drop n) n st).1 := by
    unfold write_chapters
    rw [← hL]
    conv_lhs => rw [← List.take_append_drop n chapter_order]
    rw [write_chapters_go_append, ← hst, htl, Nat.zero_add]
  have hdrop : chapter_order.drop n =
      chapter_order[n] :: chapter_order.drop (n + 1) :=
    List.drop_eq_getElem_cons h2
  have hstep : (write_chapters_go gen project_name abstractions files_data L
      (chapter_order.drop n) n st).1 =
      (write_chapters_go gen project_name abstractions files_data L
        (chapter_order.drop (n + 1)) (n + 1)
        (st.1 ++ [fix_heading_v1 (n + 1)
            (abstractions.getD chapter_order[n] defaultAbstraction).name
            (gen (chapter_prompt project_name abstractions files_data L (n + 1)
              chapter_order[n] st.1))],
         st.1 ++ [fix_heading_v1 (n + 1)
            (abstractions.getD chapter_order[n] defaultAbstraction).name
            (gen (chapter_prompt project_name abstractions files_data L (n + 1)
              chapter_order[n] st.1))])).1 := by
    conv_lhs => rw [hdrop, hpair]
    simp only [write_chapters_go]
  have hpre2 : (st.1 ++ [fix_heading_v1 (n + 1)
      (abstractions.getD chapter_order[n] defaultAbstraction).name
      (gen (chapter_prompt project_name abstractions files_data L (n + 1)
        chapter_order[n] st.1))]) <+:
      write_chapters gen chapter_order abstractions files_data project_name := by
    rw [hfinal, hstep]
    exact write_chapters_go_prefix_fst gen project_name abstractions files_data
      L _ _ _ _
  have hlen2 : (st.1 ++ [fix_heading_v1 (n + 1)
      (abstractions.getD chapter_order[n] defaultAbstraction).name
      (gen (chapter_prompt project_name abstractions files_data L (n + 1)
        chapter_order[n] st.1))]).length = n + 1 := by
    simp [hlen]
  have htake1 := take_of_prefix_length _ _ _ hpre2 hlen2
  have htake0 : (write_chapters gen chapter_order abstractions files_data
      project_name).take n = st.1 := by
    have hk := write_chapters_take gen chapter_order abstractions files_data
      project_name n (le_of_lt h2)
    unfold chapters_after at hk
    rw [← hL, ← hst] at hk
    exact hk.symm
  rw [htake1, htake0, hgd]
  unfold prompt_at
  rw [← hL, ← hst, hgd, ← hsync]

theorem chapter_prompt_decomp (project_name : Str)
    (abstractions : List AbstractionV1) (files_data : List (Str × Str))
    (listing : Str) (chapter_num : Nat) (abstraction_index : Nat)
    (written : List Str)
    (hw : join_sep (str "\n---\n") written ≠ []) :
    ∃ pre post,
      chapter_prompt project_name abstractions files_data listing chapter_num
        abstraction_index written =
      pre ++ join_sep (str "\n---\n") written ++ post := by
  refine ⟨str "\nWrite a very beginner-friendly tutorial chapter (in Markdown format) for the project `" ++
    project_name ++ str "` about the concept: \"" ++
    (abstractions.getD abstraction_index defaultAbstraction).name ++
    str "\". This is Chapter " ++ natStr chapter_num ++
    str ".\n\nConcept Details:\n- Name: " ++
    (abstractions.getD abstraction_index defaultAbstraction).name ++
    str "\n- Description:\n" ++
    (abstractions.getD abstraction_index defaultAbstraction).description ++
    str "\n\nComplete Tutorial Structure:\n" ++ listing ++
    str "\n\nContext from previous chapters:\n",
    str "\n\nRelevant Code Snippets:\n" ++
    (if file_context_of files_data
        (abstractions.getD abstraction_index defaultAbstraction).files ≠ []
     then file_context_of files_data
        (abstractions.getD abstraction_index defaultAbstraction).files
     else str "No specific code snippets provided.") ++
    str "\n\nInstructions:\n- Start with heading: `# Chapter " ++
    natStr chapter_num ++ str ": " ++
    (abstractions.getD abstraction_index defaultAbstraction).name ++
    str "`\n- Begin with high-level motivation explaining what problem this solves\n- Break complex abstractions into key concepts\n- Explain with examples, inputs/outputs\n- Keep code blocks under 10 lines\n- Use mermaid diagrams for complex concepts\n- Use analogies and examples\n- End with summary and transition to next chapter\n\nNow, provide the Markdown content:\n", ?_⟩
  simp only [chapter_prompt]
  rw [if_pos hw]
  simp only [List.append_assoc]

theorem pyTail_pos (n : Nat) (l : Str) (h : 0 < n) :
    pyTail n l = l.drop (l.length - n) := by
  unfold pyTail
  rw [if_neg (by omega)]

-- Mermaid label facts (v1 lines 1009-1023, v2 lines 440-445).

theorem quote_not_mem_sanitized (label : Str) :
    '"' ∉ pyReplaceChar '\n' ' ' (pyRemoveChar '"' label) := by
  intro h
  rcases List.mem_map.mp h with ⟨d, hd, hmap⟩
  rcases List.mem_filter.mp hd with ⟨_, hne⟩
  rw [decide_eq_true_eq] at hne
  by_cases hdn : d = '\n'
  · rw [if_pos hdn] at hmap
    exact absurd hmap (by decide)
  · rw [if_neg hdn] at hmap
    exact hne hmap

theorem quote_not_mem_edge_label_v1 (label : Str) :
    '"' ∉ edge_label_v1 label := by
  have hs := quote_not_mem_sanitized label
  simp only [edge_label_v1]
  split
  · intro hmem
    rcases List.mem_append.mp hmem with hmem | hmem
    · exact hs (List.mem_of_mem_take hmem)
    · revert hmem
      decide
  · exact hs

theorem edge_label_v1_length (label : Str) :
    (edge_label_v1 label).length ≤ 30 := by
  simp only [edge_label_v1]
  split
  · next h =>
    simp only [List.length_append, List.length_take]
    have h27 : min 27 (pyReplaceChar '\n' ' '
        (pyRemoveChar '"' label)).length = 27 :=
      Nat.min_eq_left (by omega)
    rw [h27]
    decide
  · next h => omega

-- ===========================================================================
-- CLAIM THEOREMS
-- ===========================================================================

/-- C1 (counterexample): with a single file (N = 1) and a parsed model
response whose only abstraction references file index 5,
`identify_abstractions` does not raise any validation failure: it returns
the abstraction with index 5 retained, so the returned abstraction's file
indices are not a subset of `[0, N)`, contrary to the claim. -/
theorem c1_counterexample :
    identify_abstractions [(str "a.py", str "x")]
      [⟨str "A", str "D", [.int 5]⟩] = .ok [⟨str "A", str "D", [5]⟩] ∧
    ¬ ((5 : Int) < ([(str "a.py", str "x")] : List (Str × Str)).length) :=
  ⟨rfl, by decide⟩

/-- C1 (amended): `identify_abstractions` performs no range validation:
whenever every parsed reference is an integer, the stage succeeds, and
each returned abstraction's `files` contains exactly the parsed indices
(v1: deduplicated and sorted ascending; v2: verbatim) — an out-of-range
index is neither rejected, clamped, nor dropped. -/
theorem c1_amended_no_range_validation (files_data : List (Str × Str))
    (parsed : List RawAbstraction) (out out2 : List AbstractionV1)
    (h1 : identify_abstractions files_data parsed = .ok out)
    (h2 : V2.identify_abstractions files_data parsed = .ok out2) :
    List.Forall₂ (fun item a => ∀ n : Int,
      n ∈ a.files ↔ ∃ e ∈ item.file_indices, parse_idx_entry e = .ok n)
      parsed out ∧
    List.Forall₂ (fun item a => ∀ n : Int,
      n ∈ a.files ↔ ∃ e ∈ item.file_indices, V2.parse_idx e = .ok n)
      parsed out2 := by
  constructor
  · clear h2
    induction parsed generalizing out with
    | nil =>
      simp only [identify_abstractions] at h1
      injection h1 with h1
      subst h1
      exact List.Forall₂.nil
    | cons item rest ih =>
      cases hv : validate_indices item.file_indices with
      | error e => rw [identify_abstractions, hv] at h1; cases h1
      | ok is =>
        cases hr : identify_abstractions files_data rest with
        | error e => rw [identify_abstractions, hv, hr] at h1; cases h1
        | ok out' =>
          rw [identify_abstractions, hv, hr] at h1
          injection h1 with h1
          subst h1
          refine List.Forall₂.cons ?_ (ih out' hr)
          intro n
          rw [show (⟨item.name, item.description, sortedDedup is⟩ :
              AbstractionV1).files = sortedDedup is from rfl, mem_sortedDedup]
          exact validate_indices_ok_mem _ _ hv n
  · clear h1
    induction parsed generalizing out2 with
    | nil =>
      simp only [V2.identify_abstractions] at h2
      injection h2 with h2
      subst h2
      exact List.Forall₂.nil
    | cons item rest ih =>
      cases hv : V2.validate_indices item.file_indices with
      | error e => rw [V2.identify_abstractions, hv] at h2; cases h2
      | ok is =>
        cases hr : V2.identify_abstractions files_data rest with
        | error e => rw [V2.identify_abstractions, hv, hr] at h2; cases h2
        | ok out' =>
          rw [V2.identify_abstractions, hv, hr] at h2
          injection h2 with h2
          subst h2
          refine List.Forall₂.cons ?_ (ih out' hr)
          intro n
          exact validate_indices_v2_ok_mem _ _ hv n

/-- C1 (witness for the amended theorem): a concrete parsed response with
one abstraction referencing index 7 over an empty files list; both
versions succeed and retain the index. -/
theorem c1_witness :
    identify_abstractions [] [⟨str "A", str "D", [.int 7]⟩] =
      .ok [⟨str "A", str "D", [7]⟩] ∧
    V2.identify_abstractions [] [⟨str "A", str "D", [.int 7]⟩] =
      .ok [⟨str "A", str "D", [7]⟩] ∧
    (List.Forall₂ (fun (item : RawAbstraction) (a : AbstractionV1) =>
        ∀ n : Int,
        n ∈ a.files ↔ ∃ e ∈ item.file_indices, parse_idx_entry e = .ok n)
      [⟨str "A", str "D", [.int 7]⟩] [⟨str "A", str "D", [7]⟩] ∧
     List.Forall₂ (fun (item : RawAbstraction) (a : AbstractionV1) =>
        ∀ n : Int,
        n ∈ a.files ↔ ∃ e ∈ item.file_indices, V2.parse_idx e = .ok n)
      [⟨str "A", str "D", [.int 7]⟩] [⟨str "A", str "D", [7]⟩]) :=
  ⟨rfl, rfl,
   c1_amended_no_range_validation [] [⟨str "A", str "D", [.int 7]⟩]
     [⟨str "A", str "D", [7]⟩] [⟨str "A", str "D", [7]⟩] rfl rfl⟩

/-- C2 (code bug): with N = 2 abstractions and a parsed response whose only
relationship is 0 → 0, abstraction index 1 is touched by no relationship,
yet `analyze_relationships` returns the graph instead of raising — the
code omits the coverage check that both the spec and its own docstring
("3. Validates that every abstraction appears in at least one
relationship", v1 lines 786-789) describe. -/
theorem c2_uncovered_graph_returned :
    analyze_relationships
      [⟨str "A", str "dA", []⟩, ⟨str "B", str "dB", []⟩] []
      ⟨str "S", [⟨.int 0, .int 0, str "Uses"⟩]⟩ =
      .ok ⟨str "S", [⟨0, 0, str "Uses"⟩]⟩ ∧
    ([⟨str "A", str "dA", []⟩, ⟨str "B", str "dB", []⟩] :
      List AbstractionV1).length = 2 ∧
    (1 : Int) ∉
      ([⟨0, 0, str "Uses"⟩] : List Relationship).map Relationship.from_ ∧
    (1 : Int) ∉
      ([⟨0, 0, str "Uses"⟩] : List Relationship).map Relationship.to_ :=
  ⟨rfl, rfl, by decide, by decide⟩

/-- C3 (counterexample): with N = 2 abstractions, the crafted chapter-order
response `[0, 0]` is returned as-is by `order_chapters` (no validation
failure), and `write_chapters` is then invoked with that non-permutation
order and writes two chapters — contrary to the claim that a failure is
raised before any chapter is written. -/
theorem c3_counterexample :
    order_chapters [⟨str "A", str "dA", []⟩, ⟨str "B", str "dB", []⟩]
      ⟨str "S", []⟩ [.int 0, .int 0] = .ok [0, 0] ∧
    (write_chapters (fun _ => []) [0, 0]
      [⟨str "A", str "dA", []⟩, ⟨str "B", str "dB", []⟩] []
      (str "proj")).length = 2 :=
  ⟨rfl, write_chapters_length (fun _ => []) [0, 0]
    [⟨str "A", str "dA", []⟩, ⟨str "B", str "dB", []⟩] [] (str "proj")⟩

/-- C3 (amended): `order_chapters` returns the parsed index sequence
without any permutation check — every integer sequence (duplicates or
missing indices included) is accepted — and `write_chapters` then
produces exactly one chapter per entry of whatever order it is given. -/
theorem c3_amended_no_permutation_validation
    (abstractions : List AbstractionV1) (relationships : RelGraph)
    (l : List Int) (gen : Str → Str) (files_data : List (Str × Str))
    (project_name : Str) (order : List Nat) :
    order_chapters abstractions relationships (l.map YamlVal.int) = .ok l ∧
    (write_chapters gen order abstractions files_data project_name).length =
      order.length :=
  ⟨parse_order_entries_int l,
   write_chapters_length gen order abstractions files_data project_name⟩

/-- C4 (counterexample): v2's `truncate_content` on the 10-character
content "abcdefghij" with budget 4 produces a marker that nowhere
mentions the original length 10 (the decimal "10" does not occur in the
output at all) — the marker reports the elided excess (6), contrary to
the claim that the marker mentions the original length L. -/
theorem c4_counterexample :
    V2.truncate_content (str "abcdefghij") 4 =
      str "ab\n\n... [truncated 6 chars] ...\n\nij" ∧
    ¬ (str "10" <:+: V2.truncate_content (str "abcdefghij") 4) :=
  ⟨rfl, by decide⟩

/-- C4 (amended): for budgets B ≥ 2, content of length L ≤ B passes
through both truncators unchanged; for L > B both return the first B/2
characters, one elision marker, and the last B/2 characters, where v1's
marker mentions the original length L and v2's marker instead mentions
the elided excess L − B. -/
theorem c4_amended_truncation (content : Str) (B : Nat) (hB : 2 ≤ B) :
    (content.length ≤ B →
      truncate_entry_v1 B content = content ∧
      V2.truncate_content content B = content) ∧
    (B < content.length →
      (∃ m, truncate_entry_v1 B content =
          content.take (B / 2) ++ m ++
            content.drop (content.length - B / 2) ∧
          natStr content.length <:+: m) ∧
      (∃ m, V2.truncate_content content B =
          content.take (B / 2) ++ m ++
            content.drop (content.length - B / 2) ∧
          natStr (content.length - B) <:+: m)) := by
  constructor
  · intro hle
    constructor
    · unfold truncate_entry_v1
      rw [if_neg (by omega)]
    · unfold V2.truncate_content
      rw [if_pos hle]
  · intro hgt
    have hhalf : 0 < B / 2 := by omega
    constructor
    · refine ⟨str "\n\n... [Content truncated - showing first " ++
        natStr (B / 2) ++ str " and last " ++ natStr (B / 2) ++
        str " chars of " ++ natStr content.length ++ str " total] ...\n\n",
        ?_, ?_⟩
      · simp only [truncate_entry_v1]
        rw [if_pos (by omega)]
        simp only [pyTail_pos _ _ hhalf, List.append_assoc]
      · exact ⟨str "\n\n... [Content truncated - showing first " ++
          natStr (B / 2) ++ str " and last " ++ natStr (B / 2) ++
          str " chars of ", str " total] ...\n\n",
          by simp only [List.append_assoc]⟩
    · refine ⟨str "\n\n... [truncated " ++ natStr (content.length - B) ++
        str " chars] ...\n\n", ?_, ?_⟩
      · simp only [V2.truncate_content]
        rw [if_neg (by omega)]
        simp only [pyTail_pos _ _ hhalf, List.append_assoc]
      · exact ⟨str "\n\n... [truncated ", str " chars] ...\n\n",
          by simp only [List.append_assoc]⟩

/-- C4 (witness for the amended theorem): at content "abcdefghij" and
budget 4 the long-content branch applies to both truncators. -/
theorem c4_witness :
    (∃ m, truncate_entry_v1 4 (str "abcdefghij") =
        (str "abcdefghij").take 2 ++ m ++ (str "abcdefghij").drop 8 ∧
        natStr 10 <:+: m) ∧
    (∃ m, V2.truncate_content (str "abcdefghij") 4 =
        (str "abcdefghij").take 2 ++ m ++ (str "abcdefghij").drop 8 ∧
        natStr 6 <:+: m) :=
  (c4_amended_truncation (str "abcdefghij") 4 (by decide)).2 (by decide)

/-- C6 (counterexample): the heading test only checks the prefix
`"# Chapter <n>"`: the response `"# Chapter 1 Overview\nBody"` with
abstraction name "Setup" is stored unchanged by both v1 and v2, so the
stored content does not begin with the canonical heading
`"# Chapter 1: Setup"`. -/
theorem c6_counterexample :
    fix_heading_v1 1 (str "Setup") (str "# Chapter 1 Overview\nBody") =
      str "# Chapter 1 Overview\nBody" ∧
    ¬ (actual_heading 1 (str "Setup") <+:
        fix_heading_v1 1 (str "Setup") (str "# Chapter 1 Overview\nBody")) ∧
    ¬ (actual_heading 1 (str "Setup") <+:
        V2.fix_heading 1 (str "Setup") (str "# Chapter 1 Overview\nBody")) :=
  ⟨rfl, by decide, by decide⟩

/-- C6 (amended): after heading enforcement, the stored chapter content —
once surrounding whitespace is stripped — always begins with
`"# Chapter <n>"` (the `": <name>"` part is not guaranteed): when the
stripped response lacks that prefix, v1 replaces a `'#'`-led first line
with the canonical heading or else prepends it, and v2 always prepends
it. -/
theorem c6_amended_heading_prefix_enforced (chapter_num : Nat)
    (name response : Str) :
    heading_check chapter_num <+:
      pyStrip (fix_heading_v1 chapter_num name response) ∧
    heading_check chapter_num <+:
      pyStrip (V2.fix_heading chapter_num name response) := by
  constructor
  · unfold fix_heading_v1
    split
    · next hcond => exact List.isPrefixOf_iff_prefix.mp hcond
    · split
      · split
        · exact heading_prefix_strip _ _
            (List.IsPrefix.trans (heading_check_prefix_actual _ name)
              (isPrefixOf_join_sep _ _ _))
        · refine heading_prefix_strip _ _ ?_
          rw [List.append_assoc]
          exact List.IsPrefix.trans (heading_check_prefix_actual _ name)
            (List.prefix_append _ _)
      · refine heading_prefix_strip _ _ ?_
        rw [List.append_assoc]
        exact List.IsPrefix.trans (heading_check_prefix_actual _ name)
          (List.prefix_append _ _)
  · unfold V2.fix_heading
    split
    · next hcond => exact List.isPrefixOf_iff_prefix.mp hcond
    · refine heading_prefix_strip _ _ ?_
      rw [List.append_assoc]
      exact List.IsPrefix.trans (heading_check_prefix_actual _ name)
        (List.prefix_append _ _)

/-- C7 (counterexample): the prompt "p" is a key of the store (mapped to
the empty response), yet the cached value is not returned: the Python
truthiness test `if response_from_cache:` treats "" as a miss and the
transport is invoked. -/
theorem c7_counterexample :
    lookupEntry [(str "p", [])] (str "p") = some [] ∧
    (call_llm (fun _ => str "GEN") (.entries [(str "p", [])]) true true
      (str "p")).2.1 = true ∧
    (call_llm (fun _ => str "GEN") (.entries [(str "p", [])]) true true
      (str "p")).1 = str "GEN" :=
  ⟨rfl, rfl, rfl⟩

/-- C7 (amended): for prompts within the context budget, a stored
non-empty value is returned without invoking the transport and the store
is unchanged; an absent key leads to generation, and after the
(successful) call the store maps the exact prompt to the generated
response.  (An empty stored value is treated as a miss — see the
counterexample.) -/
theorem c7_amended_cache_boundary (gen : Str → Str) (m : List (Str × Str))
    (prompt v : Str) (hfit : _count_tokens prompt ≤ 900000) :
    (lookupEntry m prompt = some v → v ≠ [] →
      call_llm gen (.entries m) true true prompt = (v, false, .entries m)) ∧
    (lookupEntry m prompt = none →
      call_llm gen (.entries m) true true prompt =
        (gen prompt, true, .entries (upsertEntry m prompt (gen prompt))) ∧
      lookupEntry (upsertEntry m prompt (gen prompt)) prompt =
        some (gen prompt)) := by
  have hE : _ensure_prompt_fits_context 900000 prompt = prompt :=
    ensure_short _ _ hfit
  constructor
  · intro hsome hne
    simp [call_llm, hE, _check_cache, hsome, hne]
  · intro hnone
    refine ⟨?_, lookup_upsertEntry m prompt (gen prompt)⟩
    simp [call_llm, hE, _check_cache, _save_to_cache, hnone]

/-- C7 (witness for the amended theorem): a hit on a non-empty cached
value returns it without generation; a miss generates and persists. -/
theorem c7_witness :
    (call_llm (fun _ => str "R") (.entries [(str "p", str "C")]) true true
      (str "p") = (str "C", false, .entries [(str "p", str "C")])) ∧
    (call_llm (fun _ => str "R") (.entries []) true true (str "p") =
      (str "R", true, .entries (upsertEntry [] (str "p") (str "R"))) ∧
     lookupEntry (upsertEntry [] (str "p") (str "R")) (str "p") =
      some (str "R")) :=
  ⟨(c7_amended_cache_boundary (fun _ => str "R") [(str "p", str "C")]
      (str "p") (str "C") (by decide)).1 rfl (by decide),
   (c7_amended_cache_boundary (fun _ => str "R") [] (str "p") []
      (by decide)).2 rfl⟩

/-- C8 (counterexample): v2's diagram truncates the 25-character edge
label to its first 20 characters with no trailing ellipsis — the
assembled diagram contains no "..." at all, contrary to the claim. -/
theorem c8_counterexample :
    V2.mermaid_lines [⟨str "A", str "d", []⟩, ⟨str "B", str "d", []⟩]
      [⟨0, 1, str "abcdefghijklmnopqrstuvwxy"⟩] =
      [str "flowchart TD", str "    A0[\"A\"]", str "    A1[\"B\"]",
       str "    A0 -- \"abcdefghijklmnopqrst\" --> A1"] ∧
    (str "abcdefghijklmnopqrstuvwxy").length = 25 ∧
    ¬ (str "..." <:+:
        join_sep (str "\n") (V2.mermaid_lines
          [⟨str "A", str "d", []⟩, ⟨str "B", str "d", []⟩]
          [⟨0, 1, str "abcdefghijklmnopqrstuvwxy"⟩])) :=
  ⟨rfl, rfl, by decide⟩

/-- C8 (amended): both diagrams consist of a header plus exactly N node
lines and |R| edge lines.  v1 strips double quotes from node and edge
labels and truncates edge labels longer than 30 characters to 27 plus an
ellipsis; v2 strips quotes from edge labels only and cuts them to the
first 20 characters with no ellipsis. -/
theorem c8_amended_mermaid (abstractions : List AbstractionV1)
    (details : List Relationship) :
    (mermaid_lines_v1 abstractions details).length =
      1 + abstractions.length + details.length ∧
    (V2.mermaid_lines abstractions details).length =
      1 + abstractions.length + details.length ∧
    (∀ rel ∈ details, '"' ∉ edge_label_v1 rel.label ∧
      (edge_label_v1 rel.label).length ≤ 30 ∧
      (30 < (pyReplaceChar '\n' ' ' (pyRemoveChar '"' rel.label)).length →
        edge_label_v1 rel.label =
          (pyReplaceChar '\n' ' ' (pyRemoveChar '"' rel.label)).take 27 ++
            str "...")) ∧
    (∀ a ∈ abstractions, '"' ∉ pyRemoveChar '"' a.name) ∧
    (∀ rel ∈ details, V2.edge_label rel.label =
      (pyRemoveChar '"' rel.label).take 20) := by
  refine ⟨?_, ?_, ?_, ?_, ?_⟩
  · simp only [mermaid_lines_v1, List.length_cons, List.length_append,
      List.length_map, List.enum_length]
    omega
  · simp only [V2.mermaid_lines, List.length_cons, List.length_append,
      List.length_map, List.enum_length]
    omega
  · intro rel _
    refine ⟨quote_not_mem_edge_label_v1 rel.label,
      edge_label_v1_length rel.label, ?_⟩
    intro hlong
    simp only [edge_label_v1]
    rw [if_pos hlong]
  · intro a _
    intro h
    rcases List.mem_filter.mp h with ⟨_, hne⟩
    rw [decide_eq_true_eq] at hne
    exact hne rfl
  · intro rel _
    rfl

/-- C8 (witness for the amended theorem): the instantiated counts and
label facts at a concrete two-node, one-edge diagram. -/
theorem c8_witness :
    (mermaid_lines_v1 [⟨str "A", str "d", []⟩, ⟨str "B", str "d", []⟩]
      [⟨0, 1, str "uses"⟩]).length = 1 + 2 + 1 ∧
    V2.edge_label (str "uses") = (pyRemoveChar '"' (str "uses")).take 20 :=
  ⟨(c8_amended_mermaid [⟨str "A", str "d", []⟩, ⟨str "B", str "d", []⟩]
      [⟨0, 1, str "uses"⟩]).1,
   (c8_amended_mermaid [⟨str "A", str "d", []⟩, ⟨str "B", str "d", []⟩]
      [⟨0, 1, str "uses"⟩]).2.2.2.2 ⟨0, 1, str "uses"⟩
    (List.mem_singleton_self _)⟩

/-- C9: `get_content_for_indices` is total (the embedding is a plain
function); a requested index outside `[0, len(files_data))` contributes
nothing, and the keys of the returned map are exactly the strings
`"i # path"` for the in-range requested indices. -/
theorem c9_get_content_keys (files_data : List (Str × Str))
    (indices : List Int) (max_chars_per_file : Nat) (k : Str) :
    k ∈ (get_content_for_indices files_data indices
        max_chars_per_file).map Prod.fst ↔
      ∃ i ∈ indices, (0 ≤ i ∧ i < (files_data.length : Int)) ∧
        k = intStr i ++ str " # " ++
          (files_data.getD i.toNat ([], [])).1 := by
  have h := keys_get_content_aux files_data max_chars_per_file indices [] k
  simpa [get_content_for_indices] using h

/-- C10: a cache-read failure (absent or unreadable file) behaves as a
miss — the generator is invoked and its response returned — and a
cache-write failure is swallowed, the generated response still being
returned with the store unchanged; this holds for v1/utils `call_llm`
and for v2's inline variant. -/
theorem c10_cache_failures_never_abort (gen : Str → Str) (prompt : Str)
    (write_ok : Bool) (m : List (Str × Str))
    (hfit : _count_tokens prompt ≤ 900000)
    (hmiss : lookupEntry m prompt = none) :
    call_llm gen .unreadable write_ok true prompt =
      (gen prompt, true, .unreadable) ∧
    call_llm gen .absent true true prompt =
      (gen prompt, true, .entries [(prompt, gen prompt)]) ∧
    (call_llm gen (.entries m) false true prompt).1 = gen prompt ∧
    (call_llm gen (.entries m) false true prompt).2.2 = .entries m ∧
    V2.call_llm gen .unreadable write_ok true prompt =
      (gen prompt, true, .unreadable) ∧
    (V2.call_llm gen (.entries m) false true prompt).1 = gen prompt := by
  have hE : _ensure_prompt_fits_context 900000 prompt = prompt :=
    ensure_short _ _ hfit
  refine ⟨?_, ?_, ?_, ?_, ?_, ?_⟩ <;>
    simp [call_llm, V2.call_llm, hE, _check_cache, _save_to_cache, hmiss]

/-- C10 (witness): concrete instances of the read- and write-failure
behaviors. -/
theorem c10_witness :
    call_llm (fun _ => str "R") .unreadable false true (str "q") =
      (str "R", true, .unreadable) ∧
    V2.call_llm (fun _ => str "R") .unreadable false true (str "q") =
      (str "R", true, .unreadable) :=
  ⟨(c10_cache_failures_never_abort (fun _ => str "R") (str "q") false []
      (by decide) rfl).1,
   (c10_cache_failures_never_abort (fun _ => str "R") (str "q") false []
      (by decide) rfl).2.2.2.2.1⟩

/-- C5: for every chapter position n ≥ 1 (0-based; chapter number n + 1),
the prompt used to generate that chapter contains the exact final
heading-normalized text of all previously generated chapters joined in
generation order; the chapter loop is append-only (the accumulator after
m iterations is exactly the first m chapters of the final output, so no
chapter changes after being appended); and chapter n + 1 of the final
output is precisely the heading-normalized response to that prompt. -/
theorem c5_previous_chapters_context (gen : Str → Str)
    (chapter_order : List Nat) (abstractions : List AbstractionV1)
    (files_data : List (Str × Str)) (project_name : Str) (n : Nat)
    (h1 : 1 ≤ n) (h2 : n < chapter_order.length) :
    (∃ pre post,
      prompt_at gen chapter_order abstractions files_data project_name n =
        pre ++ join_sep (str "\n---\n")
          ((write_chapters gen chapter_order abstractions files_data
            project_name).take n) ++ post) ∧
    (∀ m, m ≤ chapter_order.length →
      chapters_after gen chapter_order abstractions files_data project_name
        m =
      (write_chapters gen chapter_order abstractions files_data
        project_name).take m) ∧
    (write_chapters gen chapter_order abstractions files_data
        project_name).take (n + 1) =
      (write_chapters gen chapter_order abstractions files_data
        project_name).take n ++
      [fix_heading_v1 (n + 1)
        (abstractions.getD (chapter_order.getD n 0) defaultAbstraction).name
        (gen (prompt_at gen chapter_order abstractions files_data
          project_name n))] := by
  refine ⟨?_,
    fun m hm => write_chapters_take gen chapter_order abstractions files_data
      project_name m hm,
    write_chapters_step gen chapter_order abstractions files_data
      project_name n h2⟩
  have htake := write_chapters_take gen chapter_order abstractions files_data
    project_name n (le_of_lt h2)
  have hglobal : ∀ x ∈ (write_chapters gen chapter_order abstractions
      files_data project_name).take n, x ≠ [] := by
    intro x hx
    rw [← htake] at hx
    unfold chapters_after at hx
    exact write_chapters_go_ne_nil gen project_name abstractions files_data
      _ _ 0 [] []
      (by intro y hy; exact absurd hy (List.not_mem_nil y)) x hx
  have hlen : ((write_chapters gen chapter_order abstractions files_data
      project_name).take n).length = n := by
    rw [List.length_take, write_chapters_length]
    omega
  have hne : join_sep (str "\n---\n")
      ((write_chapters gen chapter_order abstractions files_data
        project_name).take n) ≠ [] := by
    cases hcase : (write_chapters gen chapter_order abstractions files_data
        project_name).take n with
    | nil =>
      rw [hcase] at hlen
      simp at hlen
      omega
    | cons x xs =>
      refine join_sep_ne_nil _ _ _ ?_
      exact hglobal x (by rw [hcase]; exact List.mem_cons_self _ _)
  obtain ⟨pre, post, hdecomp⟩ := chapter_prompt_decomp project_name
    abstractions files_data (full_chapter_listing chapter_order abstractions)
    (n + 1) (chapter_order.getD n 0)
    ((write_chapters gen chapter_order abstractions files_data
      project_name).take n) hne
  refine ⟨pre, post, ?_⟩
  rw [← hdecomp]
  unfold prompt_at
  rw [← write_chapters_go_sync gen project_name abstractions files_data
    (full_chapter_listing chapter_order abstractions)
    (chapter_order.take n) 0 []]
  unfold chapters_after at htake
  rw [htake]

/-- C5 (witness): the theorem instantiated at a concrete two-entry chapter
order over an empty abstraction list, at position n = 1. -/
theorem c5_witness :
    (∃ pre post,
      prompt_at (fun _ => []) [0, 0] [] [] [] 1 =
        pre ++ join_sep (str "\n---\n")
          ((write_chapters (fun _ => []) [0, 0] [] [] []).take 1) ++ post) ∧
    (write_chapters (fun _ => []) [0, 0] [] [] []).take 2 =
      (write_chapters (fun _ => []) [0, 0] [] [] []).take 1 ++
      [fix_heading_v1 2
        (([] : List AbstractionV1).getD (([0, 0] : List Nat).getD 1 0)
          defaultAbstraction).name
        ((fun _ => []) (prompt_at (fun _ => []) [0, 0] [] [] [] 1))] :=
  ⟨(c5_previous_chapters_context (fun _ => []) [0, 0] [] [] [] 1
      (le_refl 1) (by decide)).1,
   (c5_previous_chapters_context (fun _ => []) [0, 0] [] [] [] 1
      (le_refl 1) (by decide)).2.2⟩
